import Mathlib

/-!
Shallow embedding of the refiner-cli analysis and cleanup engine
(`src/commands.js`: `analyzeProject`, `cleanProject`,
`removeEmptyDirectories`, `getFolderSize`).

Paths are modelled as absolute strings; `path.resolve` / `path.dirname`
are embedded as segment-list normalisation.  AST nodes relevant to the
walker (`ImportDeclaration`, `CallExpression` on `require`) are modelled
as a linear list in source-walk order; all other nodes are `other`.
Filesystem reads are modelled by fields of the project value; mutating
filesystem operations of the cleanup phase are modelled by explicit
per-path failure oracles.
-/

namespace Refiner

/-! ### String primitives

Kernel-computable equivalents of the string operations the source uses
(`String.startsWith` and `String.splitOn` do not reduce in the kernel,
so they are re-implemented over `List Char`). -/

/-- `lStarts s p` holds when the char list `p` is an initial run of `s`. -/
def lStarts : List Char → List Char → Bool
  | _, [] => true
  | [], _ :: _ => false
  | c :: cs, d :: ds => c = d && lStarts cs ds

/-- JS `s.startsWith(p)`. -/
def strStarts (s p : String) : Bool := lStarts s.toList p.toList

/-- Split a char list at every occurrence of `sep` (JS `split` keeps
empty pieces, and an empty input yields one empty piece). -/
def splitCh (sep : Char) (acc : List Char) : List Char → List (List Char)
  | [] => [acc.reverse]
  | c :: cs =>
      if c = sep then acc.reverse :: splitCh sep [] cs
      else splitCh sep (c :: acc) cs

/-- JS `s.split('/')`. -/
def splitSlash (s : String) : List String :=
  (splitCh '/' [] s.toList).map String.mk

/-! ### Path model (Node `path.resolve`, `path.dirname`, `path.join`) -/

/-- Split an absolute path into its non-empty segments. -/
def splitSegs (p : String) : List String :=
  (splitSlash p).filter (fun s => s ≠ "")

/-- Normalise a segment list the way `path.resolve` does: drop `.`
segments, let `..` remove the previously accumulated segment (no-op at
the root).  The accumulator holds segments in reverse order. -/
def normSegs : List String → List String → List String
  | acc, [] => acc.reverse
  | acc, "." :: rest => normSegs acc rest
  | acc, ".." :: rest => normSegs (acc.drop 1) rest
  | acc, s :: rest => normSegs (s :: acc) rest

/-- Rebuild an absolute path from segments. -/
def joinAbs (segs : List String) : String :=
  "/" ++ String.intercalate "/" segs

/-- `path.resolve(dir, spec)` for an absolute `dir`: an absolute `spec`
replaces `dir`, a relative one is appended; the result is normalised.
No file extension is ever appended. -/
def resolvePath (dir spec : String) : String :=
  if strStarts spec "/" then
    joinAbs (normSegs [] (splitSegs spec))
  else
    joinAbs (normSegs [] (splitSegs dir ++ splitSegs spec))

/-- `path.dirname` of an absolute file path. -/
def dirname (p : String) : String :=
  joinAbs (splitSegs p).dropLast

/-- `path.join(a, b)`. -/
def joinP (a b : String) : String := a ++ "/" ++ b

/-- `file.replace(projectPath + '/', '')` for a file under the project
root (the first occurrence of `projectPath + '/'` is its prefix). -/
def relPath (projectPath file : String) : String :=
  if strStarts file (projectPath ++ "/") then
    file.drop (projectPath.length + 1)
  else file

/-- `importPath.split('/')[0]` — the package-name extraction of the
source (first path segment only, even for scoped specifiers). -/
def extractPackageName (spec : String) : String :=
  (splitSlash spec).headD ""

/-! ### AST model (acorn nodes seen by the walker) -/

/-- The value of a `Literal` node: a string, or any non-string literal
(number, boolean, `null`, regex) — the latter has no `.startsWith`. -/
inductive LitVal where
  | str (s : String)
  | nonStr
deriving DecidableEq

/-- The first argument of a `require(...)` call: a `Literal` node or any
other expression node. -/
inductive ArgNode where
  | lit (v : LitVal)
  | expr
deriving DecidableEq

/-- AST nodes of one file, in source-walk order.  `importDecl s` is an
`ImportDeclaration` with source value `s`; `requireCall a` is a
`CallExpression` whose callee is the identifier `require` with optional
first argument `a`; `other` is any other node (ignored by the walker). -/
inductive Node where
  | importDecl (source : String)
  | requireCall (arg : Option ArgNode)
  | other
deriving DecidableEq

/-! ### Walker state -/

/-- JS `Set` / `Map`-key insertion: add if absent, keep insertion order. -/
def addSet (s : List String) (x : String) : List String :=
  if x ∈ s then s else s ++ [x]

/-- The mutable state touched by the AST walk: the shared
`usedDependencies` set, the shared `fileImports` key set, and the
per-file `isUsed` flag. -/
structure WalkState where
  usedDependencies : List String
  fileImports : List String
  isUsed : Bool
deriving DecidableEq

/-- The walker's external test: `!spec.startsWith('.') && !spec.startsWith('/')`. -/
def isExternalSpec (spec : String) : Bool :=
  !(strStarts spec ".") && !(strStarts spec "/")

/-- Process one string specifier exactly as both walker callbacks do:
a specifier not starting with `.` or `/` registers an external package
name; otherwise the specifier is resolved against the importing file's
directory, recorded in `fileImports`, and the file is marked used. -/
def applySpec (file spec : String) (st : WalkState) : WalkState :=
  if isExternalSpec spec then
    { st with usedDependencies := addSet st.usedDependencies (extractPackageName spec) }
  else
    { st with
        fileImports := addSet st.fileImports (resolvePath (dirname file) spec),
        isUsed := true }

/-- The AST walk of one file.  Returns the state together with an abort
flag: a `require` call whose first argument is a `Literal` with a
non-string value raises a `TypeError` (`value.startsWith` is not a
function), which aborts the whole walk; state mutated before the throw
persists.  A missing or non-`Literal` argument is skipped silently. -/
def walkNodes (file : String) : List Node → WalkState → WalkState × Bool
  | [], st => (st, false)
  | Node.importDecl s :: rest, st => walkNodes file rest (applySpec file s st)
  | Node.requireCall (some (ArgNode.lit (LitVal.str s))) :: rest, st =>
      walkNodes file rest (applySpec file s st)
  | Node.requireCall (some (ArgNode.lit LitVal.nonStr)) :: _, st => (st, true)
  | Node.requireCall _ :: rest, st => walkNodes file rest st
  | Node.other :: rest, st => walkNodes file rest st

/-! ### Project and analysis model -/

/-- One candidate source file as the analysis sees it: absolute path,
whether `readFile`/`stat` succeed, the parse outcome (`none` = acorn
throws a `SyntaxError`), and the stat metadata. -/
structure SourceFile where
  path : String
  readOk : Bool
  parsed : Option (List Node)
  size : Nat
  mtime : String
deriving DecidableEq

/-- An entry of `AnalysisResult.unusedFiles`. -/
structure UnusedFile where
  path : String
  lastModified : String
  size : Nat
deriving DecidableEq

/-- An entry of `AnalysisResult.unusedDependencies`. -/
structure UnusedDep where
  name : String
  version : String
  size : Nat
deriving DecidableEq

/-- The result returned by `analyzeProject`. -/
structure AnalysisResult where
  unusedDependencies : List UnusedDep
  unusedFiles : List UnusedFile
deriving DecidableEq

/-- `package.json`'s two dependency sections, in declaration order. -/
structure Manifest where
  dependencies : List (String × String)
  devDependencies : List (String × String)
deriving DecidableEq

/-- A project as the analysis reads it: root path, the manifest read
outcome (`none` = missing or malformed `package.json`, which throws),
the glob result in traversal order, and the glob result under each
`node_modules/<name>` with per-file sizes (for `getFolderSize`). -/
structure Project where
  projectPath : String
  manifest : Option Manifest
  files : List SourceFile
  depFiles : String → List (String × Nat)

/-- Errors that escape the body of `analyzeProject`'s outer `try` (all
are rethrown wrapped in `Failed to analyze project: ...`). -/
inductive AnalyzeErr where
  | manifest
  | fileRead (path : String)
deriving DecidableEq

/-- The accumulated analysis state across the file loop. -/
structure AnalysisState where
  usedDependencies : List String
  fileImports : List String
  unusedFiles : List UnusedFile
deriving DecidableEq

/-- One iteration of the file loop: a failing `readFile`/`stat` throws
out of the loop (no per-file catch covers it); a parse failure is
caught, warned about, and the file contributes nothing; otherwise the
file's AST is walked and — only when the walk did not abort — the file
is classified immediately, against the imports accumulated so far. -/
def processFile (projectPath : String) (st : AnalysisState) (f : SourceFile) :
    Except AnalyzeErr AnalysisState :=
  if f.readOk then
    match f.parsed with
    | none => Except.ok st
    | some nodes =>
        let res := walkNodes f.path nodes ⟨st.usedDependencies, st.fileImports, false⟩
        if res.2 then
          Except.ok ⟨res.1.usedDependencies, res.1.fileImports, st.unusedFiles⟩
        else if ¬ res.1.isUsed ∧ f.path ∉ res.1.fileImports then
          Except.ok ⟨res.1.usedDependencies, res.1.fileImports,
            st.unusedFiles ++ [⟨relPath projectPath f.path, f.mtime, f.size⟩]⟩
        else
          Except.ok ⟨res.1.usedDependencies, res.1.fileImports, st.unusedFiles⟩
  else Except.error (AnalyzeErr.fileRead f.path)

/-- The sequential file loop of `analyzeProject`. -/
def analyzeFiles (projectPath : String) (st : AnalysisState) :
    List SourceFile → Except AnalyzeErr AnalysisState
  | [] => Except.ok st
  | f :: rest =>
      match processFile projectPath st f with
      | Except.error e => Except.error e
      | Except.ok st' => analyzeFiles projectPath st' rest

/-- `{...dependencies, ...devDependencies}`: entries of `dependencies`
in order (values overridden by a same-named `devDependencies` entry),
followed by the remaining `devDependencies` entries. -/
def mergeDeps (deps devDeps : List (String × String)) : List (String × String) :=
  deps.map (fun nv =>
    (nv.1, ((devDeps.find? (fun w => w.1 = nv.1)).map Prod.snd).getD nv.2))
  ++ devDeps.filter (fun w => ¬ deps.any (fun nv => nv.1 = w.1))

/-- `getFolderSize`: total size of the glob result under the installed
dependency's folder (internally catches all errors, yielding 0). -/
def getFolderSize (p : Project) (name : String) : Nat :=
  ((p.depFiles name).map Prod.snd).sum

/-- `analyzeProject`: read the manifest (failure is fatal), run the file
loop, then classify every declared dependency against the accumulated
`usedDependencies` set. -/
def analyzeProject (p : Project) : Except AnalyzeErr AnalysisResult :=
  match p.manifest with
  | none => Except.error AnalyzeErr.manifest
  | some m =>
      match analyzeFiles p.projectPath ⟨[], [], []⟩ p.files with
      | Except.error e => Except.error e
      | Except.ok st =>
          let allDependencies := mergeDeps m.dependencies m.devDependencies
          Except.ok
            ⟨(allDependencies.filter
                (fun nv => nv.1 ∉ st.usedDependencies)).map
                (fun nv => ⟨nv.1, nv.2, getFolderSize p nv.1⟩),
              st.unusedFiles⟩

/-! ### Filesystem-operation trace of the analysis (frame model)

`analyzeProject` touches the filesystem only through `readFile`, `stat`
and the globs.  The trace below lists, in order, every filesystem
operation the analysis performs on a given project: the manifest read,
then per candidate file a read and a stat (stopping at the first failing
read, which aborts the loop), then — when the loop completed — a stat
for every file under each unused dependency's install folder (the size
estimation).  Mutating operations exist in the op language (the cleanup
phase performs them) but the analysis never emits one. -/

/-- A filesystem operation. -/
inductive FSOp where
  | readF (path : String)
  | statF (path : String)
  | writeF (path : String) (content : String)
  | unlinkF (path : String)
  | rmF (path : String)
deriving DecidableEq

/-- Whether an operation mutates the filesystem. -/
def FSOp.mutates : FSOp → Bool
  | FSOp.writeF _ _ => true
  | FSOp.unlinkF _ => true
  | FSOp.rmF _ => true
  | FSOp.readF _ => false
  | FSOp.statF _ => false

/-- An abstract filesystem: association of paths to contents. -/
def FsMap := List (String × String)

/-- Apply one operation to an abstract filesystem: reads and stats leave
it untouched, writes set an entry, unlink/rm remove entries. -/
def applyOp (fs : FsMap) : FSOp → FsMap
  | FSOp.readF _ => fs
  | FSOp.statF _ => fs
  | FSOp.writeF p c => (List.filter (fun e => e.1 ≠ p) fs) ++ [(p, c)]
  | FSOp.unlinkF p => List.filter (fun e => e.1 ≠ p) fs
  | FSOp.rmF p => List.filter (fun e => ¬ strStarts e.1 p) fs

/-- Apply a trace of operations left to right. -/
def applyOps (fs : FsMap) (ops : List FSOp) : FsMap :=
  ops.foldl applyOp fs

/-- The read/stat pairs of the file loop, truncated at the first file
whose read fails (that exception aborts the loop). -/
def fileOps : List SourceFile → List FSOp
  | [] => []
  | f :: rest =>
      if f.readOk then FSOp.readF f.path :: FSOp.statF f.path :: fileOps rest
      else [FSOp.readF f.path]

/-- The complete filesystem trace of one `analyzeProject` run, covering
both the successful and every failing control path. -/
def analyzeOps (p : Project) : List FSOp :=
  FSOp.readF (joinP p.projectPath "package.json") ::
    match p.manifest with
    | none => []
    | some m =>
        fileOps p.files ++
          match analyzeFiles p.projectPath ⟨[], [], []⟩ p.files with
          | Except.error _ => []
          | Except.ok st =>
              ((mergeDeps m.dependencies m.devDependencies).filter
                  (fun nv => nv.1 ∉ st.usedDependencies)).flatMap
                (fun nv => (p.depFiles nv.1).map (fun e => FSOp.statF e.1))

/-! ### Cleanup model (`cleanProject`, `removeEmptyDirectories`)

The cleanup phase's filesystem effects are modelled by per-path oracles:
which dependency-entry rewrites fail, which files exist and with what
size, which unlinks fail, which rmdirs fail, plus the directory tree
under the project root as `removeEmptyDirectories` traverses it. -/

/-- A directory entry as `readdir`/`stat` present it. -/
inductive Entry where
  | file (name : String)
  | dir (name : String) (children : List Entry)

/-- The one kind of error that escapes `cleanProject`: a throw inside
the unguarded `removeEmptyDirectories` call. -/
inductive CleanErr where
  | dirRemoval
deriving DecidableEq

/-- The result returned by `cleanProject`. -/
structure CleanResult where
  removedDependencies : List String
  removedFiles : List String
  removedDirs : List String
  freedSpace : Nat
deriving DecidableEq

/-- `rmdir(path)`: succeeds (the directory was removed) or throws. -/
def rmdirAttempt (rmdirFails : String → Bool) (path : String) :
    Except CleanErr Bool :=
  if rmdirFails path then Except.error CleanErr.dirRemoval
  else Except.ok true

/-- The loop body of `removeEmptyDirectories` over the entries of one
directory: a plain file forces the directory non-empty; a subdirectory
is recursively pruned (an empty one is `rmdir`ed — a throw propagates)
and forces the directory non-empty if it survives.  Returns whether
every entry was a successfully removed subdirectory. -/
def remFold (rmdirFails : String → Bool) (path : String) :
    List Entry → Except CleanErr Bool
  | [] => Except.ok true
  | Entry.file _ :: rest =>
      match remFold rmdirFails path rest with
      | Except.error e => Except.error e
      | Except.ok _ => Except.ok false
  | Entry.dir name cs :: rest =>
      let sub : Except CleanErr Bool :=
        if cs.isEmpty then rmdirAttempt rmdirFails (path ++ "/" ++ name)
        else
          match remFold rmdirFails (path ++ "/" ++ name) cs with
          | Except.error e => Except.error e
          | Except.ok true => rmdirAttempt rmdirFails (path ++ "/" ++ name)
          | Except.ok false => Except.ok false
      match sub with
      | Except.error e => Except.error e
      | Except.ok removed =>
          match remFold rmdirFails path rest with
          | Except.error e => Except.error e
          | Except.ok r => Except.ok (removed && r)

/-- `removeEmptyDirectories(path)` over a directory whose entries are
`children`. -/
def remDirAt (rmdirFails : String → Bool) (path : String)
    (children : List Entry) : Except CleanErr Bool :=
  if children.isEmpty then rmdirAttempt rmdirFails path
  else
    match remFold rmdirFails path children with
    | Except.error e => Except.error e
    | Except.ok true => rmdirAttempt rmdirFails path
    | Except.ok false => Except.ok false

/-- The environment `cleanProject` runs against. -/
structure CleanEnv where
  projectPath : String
  depRemoveFails : String → Bool
  fileExists : String → Bool
  fileSize : String → Nat
  unlinkFails : String → Bool
  rootEntries : List Entry
  rmdirFails : String → Bool
  nodeModulesExists : Bool
  nodeModulesRmFails : Bool
  npmInstallFails : Bool

/-- One iteration of the unused-file deletion loop: the existence check
(`stat(...).catch(() => false)`) guards the body; inside it the size is
added to `freedSpace` BEFORE `unlink` is attempted, and only a
successful `unlink` records the file in `removedFiles` (an unlink throw
is caught and warned about). -/
def cleanFilesStep (env : CleanEnv) (acc : List String × Nat)
    (f : UnusedFile) : List String × Nat :=
  let fullPath := resolvePath env.projectPath f.path
  if env.fileExists fullPath then
    let freed := acc.2 + env.fileSize fullPath
    if env.unlinkFails fullPath then (acc.1, freed)
    else (acc.1 ++ [f.path], freed)
  else acc

/-- `cleanProject`: dependency entries are removed one by one, each under
its own `try` (a failure is logged and skipped); unused files likewise;
then `removeEmptyDirectories` runs UNGUARDED (its throw escapes);
then `node_modules` is removed under a `try`; then `npm install` runs
under a `try` (its failure only warns). -/
def cleanProject (env : CleanEnv) (analysis : AnalysisResult) :
    Except CleanErr CleanResult :=
  let removedDependencies :=
    (analysis.unusedDependencies.filter
        (fun d => ¬ env.depRemoveFails d.name)).map (fun d => d.name)
  let fr := analysis.unusedFiles.foldl (cleanFilesStep env) ([], 0)
  match remDirAt env.rmdirFails env.projectPath env.rootEntries with
  | Except.error e => Except.error e
  | Except.ok _ =>
      let removedDirs :=
        if env.nodeModulesExists ∧ ¬ env.nodeModulesRmFails then
          ["node_modules"]
        else []
      Except.ok ⟨removedDependencies, fr.1, removedDirs, fr.2⟩

/-! ### Derived reference predicates -/

/-- Whether a node makes the walker throw: a `require` call whose first
argument is a `Literal` carrying a non-string value. -/
def nodeAborts : Node → Bool
  | Node.requireCall (some (ArgNode.lit LitVal.nonStr)) => true
  | _ => false

/-- The external package name a node registers, if any: a string
specifier not starting with `.` or `/`, cut at its first `/`. -/
def externalNameOf : Node → Option String
  | Node.importDecl s =>
      if isExternalSpec s then some (extractPackageName s) else none
  | Node.requireCall (some (ArgNode.lit (LitVal.str s))) =>
      if isExternalSpec s then some (extractPackageName s) else none
  | _ => none

/-- All external package names a file's AST contains (empty for a file
whose parse failed). -/
def fileExternals (f : SourceFile) : List String :=
  (f.parsed.getD []).filterMap externalNameOf

/-! ### Concrete scenario projects used to settle the claims -/

/-- A manifest declaring nothing. -/
def emptyManifest : Manifest := ⟨[], []⟩

/-- `/proj/a.js`: parses, no references. -/
def fA1 : SourceFile := ⟨"/proj/a.js", true, some [], 10, "ta"⟩

/-- `/proj/b.js`: `import x from './a.js'`. -/
def fB1 : SourceFile := ⟨"/proj/b.js", true, some [Node.importDecl "./a.js"], 20, "tb"⟩

/-- The two-file project with `a.js` processed before `b.js`. -/
def projC1fwd : Project := ⟨"/proj", some emptyManifest, [fA1, fB1], fun _ => []⟩

/-- The same two files, `b.js` processed first. -/
def projC1rev : Project := ⟨"/proj", some emptyManifest, [fB1, fA1], fun _ => []⟩

/-- `/proj/c.js`: `require(42)` followed by `import _ from 'lodash'` —
the numeric literal makes the walker throw before the import is seen. -/
def fC2 : SourceFile :=
  ⟨"/proj/c.js", true,
    some [Node.requireCall (some (ArgNode.lit LitVal.nonStr)),
          Node.importDecl "lodash"], 5, "tc"⟩

/-- A manifest declaring `lodash`. -/
def lodashManifest : Manifest := ⟨[("lodash", "1.0.0")], []⟩

/-- Project for the C2 counterexample. -/
def projC2 : Project := ⟨"/proj", some lodashManifest, [fC2], fun _ => []⟩

/-- `/proj/u.js`: `import _ from 'lodash'`. -/
def fUse : SourceFile := ⟨"/proj/u.js", true, some [Node.importDecl "lodash"], 4, "tu"⟩

/-- Project for the C2 amended witness: `lodash` declared and imported. -/
def projC2w : Project := ⟨"/proj", some lodashManifest, [fUse], fun _ => []⟩

/-- `/proj/s.js`: `import x from '@scope/pkg'`. -/
def fC3 : SourceFile := ⟨"/proj/s.js", true, some [Node.importDecl "@scope/pkg"], 3, "ts"⟩

/-- A manifest declaring the scoped package `@scope/pkg`. -/
def scopedManifest : Manifest := ⟨[("@scope/pkg", "2.0.0")], []⟩

/-- Project for the C3 failing input. -/
def projC3 : Project := ⟨"/proj", some scopedManifest, [fC3], fun _ => []⟩

/-- `/proj/g.js`: a healthy file. -/
def fGood : SourceFile := ⟨"/proj/g.js", true, some [], 1, "tg"⟩

/-- `/proj/e.js`: acorn throws a `SyntaxError`. -/
def fParseErr : SourceFile := ⟨"/proj/e.js", true, none, 9, "te"⟩

/-- `/proj/bad.js`: `readFile` rejects. -/
def fBad : SourceFile := ⟨"/proj/bad.js", false, none, 2, "tx"⟩

/-- Project for the C5 counterexample: one readable file, then one whose
read fails. -/
def projC5 : Project := ⟨"/proj", some emptyManifest, [fGood, fBad], fun _ => []⟩

/-- Base project for the C4 witness. -/
def projC4base : Project := ⟨"/proj", some emptyManifest, [], fun _ => []⟩

/-- `/proj/d.js` containing only `require(42)`. -/
def fD : SourceFile :=
  ⟨"/proj/d.js", true, some [Node.requireCall (some (ArgNode.lit LitVal.nonStr))], 7, "td"⟩

/-- `/proj/d.js` containing only a `require` call with no argument. -/
def fDskip : SourceFile := ⟨"/proj/d.js", true, some [Node.requireCall none], 7, "td"⟩

/-- Project for the C6 counterexample (non-string literal argument). -/
def projC6bad : Project := ⟨"/proj", some emptyManifest, [fD], fun _ => []⟩

/-- The same project with the argument absent instead. -/
def projC6skip : Project := ⟨"/proj", some emptyManifest, [fDskip], fun _ => []⟩

/-- Cleanup environment for the C8 counterexample: the one unused file
exists with size 100 but its `unlink` fails. -/
def envC8 : CleanEnv :=
  ⟨"/proj", fun _ => false, fun p => p = "/proj/f.js", fun _ => 100,
    fun p => p = "/proj/f.js", [Entry.file "f.js"], fun _ => false,
    false, false, false⟩

/-- Analysis feeding the C8 counterexample. -/
def analysisC8 : AnalysisResult := ⟨[], [⟨"f.js", "tf", 100⟩]⟩

/-- Cleanup environment for the C9 counterexample: an empty directory
`/proj/empty` whose `rmdir` fails. -/
def envC9 : CleanEnv :=
  ⟨"/proj", fun _ => false, fun _ => false, fun _ => 0,
    fun _ => false, [Entry.dir "empty" []], fun p => p = "/proj/empty",
    false, false, false⟩

/-- Analysis feeding the C9 counterexample: one unused dependency whose
entry removal would succeed. -/
def analysisC9 : AnalysisResult := ⟨[⟨"dep", "1", 0⟩], []⟩

/-- Cleanup environment for the amended C8/C9 witnesses: two unused
files, one deletable and one whose unlink fails; root holds only plain
files, so the pruning pass touches nothing. -/
def envCw : CleanEnv :=
  ⟨"/proj", fun n => n = "dep2", fun p => p ≠ "/proj/gone.js", fun _ => 30,
    fun p => p = "/proj/locked.js", [Entry.file "a.js"], fun _ => false,
    true, false, true⟩

/-- Analysis feeding the amended C8/C9 witnesses. -/
def analysisCw : AnalysisResult :=
  ⟨[⟨"dep1", "1", 0⟩, ⟨"dep2", "2", 0⟩],
    [⟨"locked.js", "t1", 30⟩, ⟨"ok.js", "t2", 30⟩, ⟨"gone.js", "t3", 0⟩]⟩

/-- `/proj/a.js`: `import x from './b'` (extensionless specifier). -/
def fA10 : SourceFile := ⟨"/proj/a.js", true, some [Node.importDecl "./b"], 11, "ta"⟩

/-- `/proj/b.js`: no references. -/
def fB10 : SourceFile := ⟨"/proj/b.js", true, some [], 22, "tb"⟩

/-- Project for C10: `b.js` is referenced only as `./b`. -/
def projC10 : Project := ⟨"/proj", some emptyManifest, [fA10, fB10], fun _ => []⟩

/-- Whether an `Except` value is a success. -/
def exOk {e a : Type} (x : Except e a) : Bool :=
  match x with
  | Except.ok _ => true
  | Except.error _ => false

end Refiner

deriving instance DecidableEq for Except

namespace Refiner

/-! ### Helper lemmas about the walker -/

/-- Membership in a JS-set after insertion. -/
theorem addSet_mem (s : List String) (x y : String) :
    y ∈ addSet s x ↔ y ∈ s ∨ y = x := by
  unfold addSet
  split
  · constructor
    · exact Or.inl
    · rintro (h | rfl)
      · exact h
      · assumption
  · simp [List.mem_append]

/-- What one specifier does to `usedDependencies`. -/
theorem applySpec_used_mem (file spec : String) (st : WalkState) (x : String) :
    x ∈ (applySpec file spec st).usedDependencies ↔
      x ∈ st.usedDependencies ∨
        (isExternalSpec spec = true ∧ x = extractPackageName spec) := by
  unfold applySpec
  cases h : isExternalSpec spec <;> simp [h, addSet_mem]

/-- A walk over abort-free nodes never sets the abort flag. -/
theorem walkNodes_noabort (file : String) (ns : List Node) (ws : WalkState)
    (h : ∀ n ∈ ns, nodeAborts n = false) :
    (walkNodes file ns ws).2 = false := by
  induction ns generalizing ws with
  | nil => rfl
  | cons n rest ih =>
    have hn := h n (List.mem_cons_self n rest)
    have hrest : ∀ m ∈ rest, nodeAborts m = false :=
      fun m hm => h m (List.mem_cons_of_mem n hm)
    match n with
    | Node.importDecl s => exact ih _ hrest
    | Node.requireCall (some (ArgNode.lit (LitVal.str s))) => exact ih _ hrest
    | Node.requireCall (some (ArgNode.lit LitVal.nonStr)) => simp [nodeAborts] at hn
    | Node.requireCall (some ArgNode.expr) => exact ih _ hrest
    | Node.requireCall none => exact ih _ hrest
    | Node.other => exact ih _ hrest

/-- Over abort-free nodes, the walk adds to `usedDependencies` exactly
the external names the node list contains. -/
theorem walkNodes_used_mem (file : String) (ns : List Node) (ws : WalkState) (x : String)
    (h : ∀ n ∈ ns, nodeAborts n = false) :
    x ∈ (walkNodes file ns ws).1.usedDependencies ↔
      x ∈ ws.usedDependencies ∨ x ∈ ns.filterMap externalNameOf := by
  induction ns generalizing ws with
  | nil => simp [walkNodes]
  | cons n rest ih =>
    have hn := h n (List.mem_cons_self n rest)
    have hrest : ∀ m ∈ rest, nodeAborts m = false :=
      fun m hm => h m (List.mem_cons_of_mem n hm)
    match n with
    | Node.importDecl s =>
      rw [show walkNodes file (Node.importDecl s :: rest) ws
            = walkNodes file rest (applySpec file s ws) from rfl]
      rw [ih _ hrest, applySpec_used_mem]
      cases hc : isExternalSpec s <;>
        simp [List.filterMap_cons, externalNameOf, hc, or_assoc]
    | Node.requireCall (some (ArgNode.lit (LitVal.str s))) =>
      rw [show walkNodes file (Node.requireCall (some (ArgNode.lit (LitVal.str s))) :: rest) ws
            = walkNodes file rest (applySpec file s ws) from rfl]
      rw [ih _ hrest, applySpec_used_mem]
      cases hc : isExternalSpec s <;>
        simp [List.filterMap_cons, externalNameOf, hc, or_assoc]
    | Node.requireCall (some (ArgNode.lit LitVal.nonStr)) => simp [nodeAborts] at hn
    | Node.requireCall (some ArgNode.expr) =>
      rw [show walkNodes file (Node.requireCall (some ArgNode.expr) :: rest) ws
            = walkNodes file rest ws from rfl]
      rw [ih _ hrest]
      simp [List.filterMap_cons, externalNameOf]
    | Node.requireCall none =>
      rw [show walkNodes file (Node.requireCall none :: rest) ws
            = walkNodes file rest ws from rfl]
      rw [ih _ hrest]
      simp [List.filterMap_cons, externalNameOf]
    | Node.other =>
      rw [show walkNodes file (Node.other :: rest) ws = walkNodes file rest ws from rfl]
      rw [ih _ hrest]
      simp [List.filterMap_cons, externalNameOf]

/-! ### Helper lemmas about the file loop -/

/-- A file whose read fails throws out of the loop. -/
theorem processFile_error_of_read (pp : String) (st : AnalysisState) (f : SourceFile)
    (h : f.readOk = false) :
    processFile pp st f = Except.error (AnalyzeErr.fileRead f.path) := by
  unfold processFile
  simp [h]

/-- A readable file never throws out of the loop. -/
theorem processFile_ok_of_read (pp : String) (st : AnalysisState) (f : SourceFile)
    (h : f.readOk = true) :
    ∃ st', processFile pp st f = Except.ok st' := by
  unfold processFile
  simp only [h, if_true]
  cases f.parsed with
  | none => exact ⟨st, rfl⟩
  | some nodes =>
    simp only
    split
    · exact ⟨_, rfl⟩
    · split
      · exact ⟨_, rfl⟩
      · exact ⟨_, rfl⟩

/-- Effect of one readable, abort-free file on `usedDependencies`. -/
theorem processFile_used_mem (pp : String) (st st' : AnalysisState) (f : SourceFile)
    (x : String) (h1 : f.readOk = true)
    (h2 : ∀ n ∈ f.parsed.getD [], nodeAborts n = false)
    (h3 : processFile pp st f = Except.ok st') :
    (x ∈ st'.usedDependencies ↔
      x ∈ st.usedDependencies ∨ x ∈ fileExternals f) := by
  unfold processFile at h3
  simp only [h1, if_true] at h3
  cases hp : f.parsed with
  | none =>
    rw [hp] at h3
    cases h3
    simp [fileExternals, hp]
  | some nodes =>
    rw [hp] at h3
    rw [hp] at h2
    simp only [Option.getD_some] at h2
    have hmem := walkNodes_used_mem f.path nodes
      ⟨st.usedDependencies, st.fileImports, false⟩ x h2
    simp only at h3
    split at h3
    · cases h3
      simpa [fileExternals, hp] using hmem
    · split at h3 <;>
      · cases h3
        simpa [fileExternals, hp] using hmem

/-- A loop over readable files completes. -/
theorem analyzeFiles_ok (pp : String) (fs : List SourceFile) (st : AnalysisState)
    (h : ∀ f ∈ fs, f.readOk = true) :
    ∃ st', analyzeFiles pp st fs = Except.ok st' := by
  induction fs generalizing st with
  | nil => exact ⟨st, rfl⟩
  | cons f rest ih =>
    have hf := h f (List.mem_cons_self f rest)
    have hrest : ∀ g ∈ rest, g.readOk = true :=
      fun g hg => h g (List.mem_cons_of_mem f hg)
    obtain ⟨st1, hst1⟩ := processFile_ok_of_read pp st f hf
    obtain ⟨st2, hst2⟩ := ih st1 hrest
    exact ⟨st2, by simp [analyzeFiles, hst1, hst2]⟩

/-- Over readable, abort-free files the loop accumulates into
`usedDependencies` exactly the external names of all files. -/
theorem analyzeFiles_used_mem (pp : String) (fs : List SourceFile)
    (st st' : AnalysisState) (x : String)
    (hr : ∀ f ∈ fs, f.readOk = true)
    (hab : ∀ f ∈ fs, ∀ n ∈ f.parsed.getD [], nodeAborts n = false)
    (h : analyzeFiles pp st fs = Except.ok st') :
    (x ∈ st'.usedDependencies ↔
      x ∈ st.usedDependencies ∨ ∃ f ∈ fs, x ∈ fileExternals f) := by
  induction fs generalizing st with
  | nil =>
    cases h
    simp
  | cons f rest ih =>
    have hf := hr f (List.mem_cons_self f rest)
    have hrest : ∀ g ∈ rest, g.readOk = true :=
      fun g hg => hr g (List.mem_cons_of_mem f hg)
    have habf := hab f (List.mem_cons_self f rest)
    have habrest : ∀ g ∈ rest, ∀ n ∈ g.parsed.getD [], nodeAborts n = false :=
      fun g hg => hab g (List.mem_cons_of_mem f hg)
    unfold analyzeFiles at h
    cases hpf : processFile pp st f with
    | error e => rw [hpf] at h; cases h
    | ok st1 =>
      rw [hpf] at h
      simp only at h
      rw [ih st1 hrest habrest h]
      rw [processFile_used_mem pp st st1 f x hf habf hpf]
      simp only [List.mem_cons]
      constructor
      · rintro ((hx | hx) | ⟨g, hg, hx⟩)
        · exact Or.inl hx
        · exact Or.inr ⟨f, Or.inl rfl, hx⟩
        · exact Or.inr ⟨g, Or.inr hg, hx⟩
      · rintro (hx | ⟨g, (rfl | hg), hx⟩)
        · exact Or.inl (Or.inl hx)
        · exact Or.inl (Or.inr hx)
        · exact Or.inr ⟨g, hg, hx⟩

/-- The loop throws exactly when some file's read fails. -/
theorem analyzeFiles_error_iff (pp : String) (fs : List SourceFile) (st : AnalysisState) :
    (∃ e, analyzeFiles pp st fs = Except.error e) ↔ ∃ f ∈ fs, f.readOk = false := by
  induction fs generalizing st with
  | nil => simp [analyzeFiles]
  | cons f rest ih =>
    cases hf : f.readOk with
    | false =>
      have := processFile_error_of_read pp st f hf
      constructor
      · intro
        exact ⟨f, List.mem_cons_self f rest, hf⟩
      · intro
        exact ⟨AnalyzeErr.fileRead f.path, by simp [analyzeFiles, this]⟩
    | true =>
      obtain ⟨st1, hst1⟩ := processFile_ok_of_read pp st f hf
      unfold analyzeFiles
      rw [hst1]
      simp only
      rw [ih st1]
      constructor
      · rintro ⟨g, hg, hgr⟩
        exact ⟨g, List.mem_cons_of_mem f hg, hgr⟩
      · rintro ⟨g, hg, hgr⟩
        rcases List.mem_cons.mp hg with rfl | hg2
        · rw [hf] at hgr; cases hgr
        · exact ⟨g, hg2, hgr⟩

/-- Removing a readable parse-failed file from anywhere in the candidate
list leaves the loop's outcome unchanged. -/
theorem analyzeFiles_insert_skip (pp : String) (xs ys : List SourceFile)
    (f : SourceFile) (h1 : f.readOk = true) (h2 : f.parsed = none) :
    ∀ st, analyzeFiles pp st (xs ++ f :: ys) = analyzeFiles pp st (xs ++ ys) := by
  induction xs with
  | nil =>
    intro st
    have hpf : processFile pp st f = Except.ok st := by
      unfold processFile
      simp [h1, h2]
    simp [analyzeFiles, hpf]
  | cons x xs ih =>
    intro st
    simp only [List.cons_append, analyzeFiles]
    cases processFile pp st x with
    | error e => rfl
    | ok st1 => exact ih st1

/-! ### Helper lemmas about the operation trace -/

/-- A non-mutating operation leaves the filesystem unchanged. -/
theorem applyOp_of_not_mutating (fs : FsMap) (op : FSOp) (h : op.mutates = false) :
    applyOp fs op = fs := by
  cases op with
  | readF p => rfl
  | statF p => rfl
  | writeF p c => simp [FSOp.mutates] at h
  | unlinkF p => simp [FSOp.mutates] at h
  | rmF p => simp [FSOp.mutates] at h

/-- A trace of non-mutating operations leaves the filesystem unchanged. -/
theorem applyOps_of_not_mutating (ops : List FSOp) :
    ∀ fs, (∀ op ∈ ops, op.mutates = false) → applyOps fs ops = fs := by
  induction ops with
  | nil => intro fs _; rfl
  | cons op rest ih =>
    intro fs h
    have hop := h op (List.mem_cons_self op rest)
    have hrest : ∀ o ∈ rest, o.mutates = false :=
      fun o ho => h o (List.mem_cons_of_mem op ho)
    show applyOps (applyOp fs op) rest = fs
    rw [applyOp_of_not_mutating fs op hop]
    exact ih fs hrest

/-- The file loop performs only reads and stats. -/
theorem fileOps_not_mutating (fs : List SourceFile) :
    ∀ op ∈ fileOps fs, op.mutates = false := by
  induction fs with
  | nil => intro op h; cases h
  | cons f rest ih =>
    intro op h
    unfold fileOps at h
    split at h
    · rcases List.mem_cons.mp h with rfl | h2
      · rfl
      · rcases List.mem_cons.mp h2 with rfl | h3
        · rfl
        · exact ih op h3
    · rcases List.mem_cons.mp h with rfl | h2
      · rfl
      · cases h2

/-- Every operation in an `analyzeProject` trace is a read or a stat. -/
theorem analyzeOps_not_mutating (p : Project) :
    ∀ op ∈ analyzeOps p, op.mutates = false := by
  intro op h
  unfold analyzeOps at h
  rcases List.mem_cons.mp h with rfl | h2
  · rfl
  · cases hm : p.manifest with
    | none =>
      rw [hm] at h2
      cases h2
    | some m =>
      rw [hm] at h2
      simp only at h2
      rcases List.mem_append.mp h2 with h3 | h3
      · exact fileOps_not_mutating p.files op h3
      · cases hf : analyzeFiles p.projectPath ⟨[], [], []⟩ p.files with
        | error e =>
          rw [hf] at h3
          cases h3
        | ok st =>
          rw [hf] at h3
          simp only [List.mem_flatMap, List.mem_map] at h3
          obtain ⟨nv, _, e, _, rfl⟩ := h3
          rfl

/-! ### Helper lemmas about the cleanup phase -/

/-- Closed form of the unused-file deletion loop: `freedSpace` collects
the size of every file that passed the existence check — whether or not
its unlink succeeded — while `removedFiles` keeps only the files whose
unlink succeeded. -/
theorem cleanFiles_fold (env : CleanEnv) (l : List UnusedFile) :
    ∀ acc : List String × Nat,
      l.foldl (cleanFilesStep env) acc =
        (acc.1 ++ (l.filter (fun f =>
            env.fileExists (resolvePath env.projectPath f.path) &&
            ! env.unlinkFails (resolvePath env.projectPath f.path))).map
            (fun f => f.path),
         acc.2 + (l.map (fun f =>
            if env.fileExists (resolvePath env.projectPath f.path) then
              env.fileSize (resolvePath env.projectPath f.path)
            else 0)).sum) := by
  induction l with
  | nil => intro acc; simp
  | cons f rest ih =>
    intro acc
    rw [List.foldl_cons]
    cases hex : env.fileExists (resolvePath env.projectPath f.path) with
    | false =>
      have hstep : cleanFilesStep env acc f = acc := by
        unfold cleanFilesStep
        simp [hex]
      rw [hstep, ih acc]
      simp [hex]
    | true =>
      cases hul : env.unlinkFails (resolvePath env.projectPath f.path) with
      | false =>
        have hstep : cleanFilesStep env acc f =
            (acc.1 ++ [f.path],
             acc.2 + env.fileSize (resolvePath env.projectPath f.path)) := by
          unfold cleanFilesStep
          simp [hex, hul]
        rw [hstep, ih]
        simp [hex, hul, Nat.add_assoc]
      | true =>
        have hstep : cleanFilesStep env acc f =
            (acc.1, acc.2 + env.fileSize (resolvePath env.projectPath f.path)) := by
          unfold cleanFilesStep
          simp [hex, hul]
        rw [hstep, ih]
        simp [hex, hul, Nat.add_assoc]

/-! ### Claim theorems -/

/-- C1: the claim says a candidate file appears in `unusedFiles` iff it
is never the resolved target of another file's internal reference and
itself has none, independently of processing order.  The code violates
this: with `a.js` processed before `b.js` (which imports `./a.js`),
`a.js` is reported unused even though it is the resolved target of
`b.js`'s internal reference, and reversing the processing order removes
it from the report — classification is interleaved with extraction. -/
theorem c1_file_classification_is_order_dependent :
    analyzeProject projC1fwd = Except.ok ⟨[], [⟨"a.js", "ta", 10⟩]⟩ ∧
    analyzeProject projC1rev = Except.ok ⟨[], []⟩ ∧
    resolvePath (dirname fB1.path) "./a.js" = fA1.path :=
  ⟨by decide, by decide, by decide⟩

/-- C2 counterexample: `c.js` parses successfully and contains an
external import of `lodash`, yet `lodash` is reported unused, because a
preceding `require(42)` aborts the walk before the import is visited.
The claimed iff is therefore false as stated. -/
theorem c2_walk_abort_breaks_dependency_iff :
    analyzeProject projC2 = Except.ok ⟨[⟨"lodash", "1.0.0", 0⟩], []⟩ ∧
    fC2.parsed.isSome = true ∧ "lodash" ∈ fileExternals fC2 :=
  ⟨by decide, by decide, by decide⟩

/-- C2 amended: provided no file's walk aborts (no `require` call with a
non-string literal argument), a declared dependency name is reported
unused iff no successfully parsed candidate file contains an external
reference whose extracted package name equals it. -/
theorem c2_unused_dependency_iff_amended (p : Project) (m : Manifest) (d : String)
    (hm : p.manifest = some m)
    (hread : ∀ f ∈ p.files, f.readOk = true)
    (hab : ∀ f ∈ p.files, ∀ n ∈ f.parsed.getD [], nodeAborts n = false)
    (hd : d ∈ (mergeDeps m.dependencies m.devDependencies).map Prod.fst) :
    ∃ r, analyzeProject p = Except.ok r ∧
      (d ∈ r.unusedDependencies.map UnusedDep.name ↔
        ¬ ∃ f ∈ p.files, d ∈ fileExternals f) := by
  obtain ⟨st, hst⟩ := analyzeFiles_ok p.projectPath p.files ⟨[], [], []⟩ hread
  have hused := analyzeFiles_used_mem p.projectPath p.files ⟨[], [], []⟩ st d hread hab hst
  simp only [List.not_mem_nil, false_or] at hused
  unfold analyzeProject
  rw [hm, hst]
  refine ⟨_, rfl, ?_⟩
  simp only [List.map_map, List.mem_map, Function.comp, List.mem_filter]
  constructor
  · rintro ⟨nv, ⟨hnv, hnotused⟩, rfl⟩
    simp at hnotused
    intro hex
    exact hnotused (hused.mpr hex)
  · intro hex
    simp only [List.mem_map] at hd
    obtain ⟨nv, hnv, rfl⟩ := hd
    refine ⟨nv, ⟨hnv, ?_⟩, rfl⟩
    simp
    intro hmem
    exact hex (hused.mp hmem)

/-- C2 amended, witness: in a project declaring `lodash` whose one
file imports `lodash`, the amended iff holds at `d = lodash`. -/
theorem c2_unused_dependency_iff_amended_witness :
    ∃ r, analyzeProject projC2w = Except.ok r ∧
      ("lodash" ∈ r.unusedDependencies.map UnusedDep.name ↔
        ¬ ∃ f ∈ projC2w.files, "lodash" ∈ fileExternals f) :=
  c2_unused_dependency_iff_amended projC2w lodashManifest "lodash" rfl
    (by decide) (by decide) (by decide)

/-- C3: the claim (and the spec's intent) is that a scoped specifier
`@scope/pkg` registers external usage for `@scope/pkg`.  The code takes
only `split('/')[0]`, registering `@scope`, so the declared `@scope/pkg`
is misreported as unused even though `s.js` imports it. -/
theorem c3_scoped_specifier_registers_first_segment :
    extractPackageName "@scope/pkg" = "@scope" ∧
    analyzeProject projC3 =
      Except.ok ⟨[⟨"@scope/pkg", "2.0.0", 0⟩], [⟨"s.js", "ts", 3⟩]⟩ :=
  ⟨by decide, by decide⟩

/-- C4: a readable candidate file whose parse fails contributes nothing:
its loop iteration returns the incoming state unchanged (no references,
no `unusedFiles` entry, no abort), and the whole analysis result is the
same as if the file were absent from the candidate list. -/
theorem c4_parse_failure_excluded (pp : String) (st : AnalysisState) (f : SourceFile)
    (mf : Option Manifest) (df : String → List (String × Nat))
    (xs ys : List SourceFile)
    (h1 : f.readOk = true) (h2 : f.parsed = none) :
    processFile pp st f = Except.ok st ∧
      analyzeProject ⟨pp, mf, xs ++ f :: ys, df⟩ =
        analyzeProject ⟨pp, mf, xs ++ ys, df⟩ := by
  constructor
  · unfold processFile
    simp [h1, h2]
  · unfold analyzeProject
    simp only
    cases mf with
    | none => rfl
    | some m =>
      rw [analyzeFiles_insert_skip pp xs ys f h1 h2 ⟨[], [], []⟩]
      rfl

/-- C4 witness: a concrete parse-failed file `e.js` leaves the state
untouched and drops out of a concrete two-file project's analysis. -/
theorem c4_parse_failure_excluded_witness :
    processFile "/proj" ⟨[], [], []⟩ fParseErr = Except.ok ⟨[], [], []⟩ ∧
      analyzeProject ⟨"/proj", some emptyManifest, [fGood] ++ fParseErr :: [], fun _ => []⟩ =
        analyzeProject ⟨"/proj", some emptyManifest, [fGood] ++ [], fun _ => []⟩ :=
  c4_parse_failure_excluded "/proj" ⟨[], [], []⟩ fParseErr (some emptyManifest)
    (fun _ => []) [fGood] [] (by decide) (by decide)

/-- C5 counterexample: the claim says a failing read of one candidate
file is non-fatal and the analysis continues.  In the code the
`readFile`/`stat` calls sit outside the per-file `try`, so the project
whose second file is unreadable aborts with an error instead of
returning an `AnalysisResult`. -/
theorem c5_single_read_failure_aborts :
    analyzeProject projC5 = Except.error (AnalyzeErr.fileRead "/proj/bad.js") := by
  decide

/-- C5 amended: the analysis fails exactly when the manifest read fails
or some candidate file's read/stat fails; parse failures never abort. -/
theorem c5_fatal_error_characterization_amended (p : Project) :
    (∃ e, analyzeProject p = Except.error e) ↔
      (p.manifest = none ∨ ∃ f ∈ p.files, f.readOk = false) := by
  unfold analyzeProject
  cases hm : p.manifest with
  | none => simp
  | some m =>
    cases hf : analyzeFiles p.projectPath ⟨[], [], []⟩ p.files with
    | error e =>
      simp only
      constructor
      · intro
        exact Or.inr ((analyzeFiles_error_iff p.projectPath p.files ⟨[], [], []⟩).mp ⟨e, hf⟩)
      · intro
        exact ⟨e, rfl⟩
    | ok st =>
      simp only
      constructor
      · rintro ⟨e, he⟩
        cases he
      · rintro (h | h)
        · cases h
        · obtain ⟨e, he⟩ := (analyzeFiles_error_iff p.projectPath p.files ⟨[], [], []⟩).mpr h
          rw [hf] at he
          cases he

/-- C6 counterexample: the claim says a `require` whose first argument
is a non-string literal is silently skipped without changing the file's
classification.  With `require(42)` as its only statement, `d.js` is NOT
reported unused (the thrown `TypeError` skips its classification), while
the same file with the argument absent IS reported unused — the
non-string literal does change the classification. -/
theorem c6_nonstring_literal_changes_classification :
    analyzeProject projC6bad = Except.ok ⟨[], []⟩ ∧
    analyzeProject projC6skip = Except.ok ⟨[], [⟨"d.js", "td", 7⟩]⟩ :=
  ⟨by decide, by decide⟩

/-- C6 amended: a `require` call with an absent or non-`Literal` first
argument is silently skipped by the walk; a `Literal` non-string
argument instead aborts the walk (keeping the state accumulated so far),
and a file whose AST starts with such a call is excluded from
`unusedFiles` classification with its state contribution unchanged. -/
theorem c6_require_argument_handling_amended :
    (∀ (file : String) (rest : List Node) (st : WalkState),
        walkNodes file (Node.requireCall none :: rest) st =
          walkNodes file rest st ∧
        walkNodes file (Node.requireCall (some ArgNode.expr) :: rest) st =
          walkNodes file rest st ∧
        walkNodes file (Node.requireCall (some (ArgNode.lit LitVal.nonStr)) :: rest) st =
          (st, true)) ∧
    (∀ (pp path mt : String) (sz : Nat) (rest : List Node) (st : AnalysisState),
        processFile pp st
            ⟨path, true,
              some (Node.requireCall (some (ArgNode.lit LitVal.nonStr)) :: rest),
              sz, mt⟩ =
          Except.ok st) :=
  ⟨fun _ _ _ => ⟨rfl, rfl, rfl⟩, fun _ _ _ _ _ _ => rfl⟩

/-- C7: every filesystem operation `analyzeProject` performs — on any
project, whether the run succeeds or fails — is a read or a stat, so
replaying its full operation trace over any filesystem leaves that
filesystem exactly as it was. -/
theorem c7_analysis_leaves_filesystem_unchanged (p : Project) (fs : FsMap) :
    applyOps fs (analyzeOps p) = fs :=
  applyOps_of_not_mutating (analyzeOps p) fs (analyzeOps_not_mutating p)

/-- C8 counterexample: the claim says `freedSpace` sums the sizes of
exactly the files actually deleted.  The code adds the size BEFORE
attempting `unlink`: with one unused file of size 100 whose unlink
fails, the result reports `freedSpace = 100` while `removedFiles` is
empty — no file was deleted. -/
theorem c8_freed_space_counts_failed_unlink :
    cleanProject envC8 analysisC8 = Except.ok ⟨[], [], [], 100⟩ := by
  simp [cleanProject, envC8, analysisC8, cleanFilesStep, remDirAt, remFold, rmdirAttempt]
  decide

/-- C8 amended: when the directory-pruning pass raises no error,
`freedSpace` equals the summed sizes of every unused file that passed
the existence check — including files whose `unlink` then failed —
while `removedFiles` lists exactly the files whose unlink succeeded;
missing files contribute nothing, and dependency sizes are never
included. -/
theorem c8_freed_space_accounting_amended (env : CleanEnv) (analysis : AnalysisResult)
    (h : exOk (remDirAt env.rmdirFails env.projectPath env.rootEntries) = true) :
    ∃ r, cleanProject env analysis = Except.ok r ∧
      r.freedSpace = (analysis.unusedFiles.map (fun f =>
        if env.fileExists (resolvePath env.projectPath f.path) then
          env.fileSize (resolvePath env.projectPath f.path)
        else 0)).sum ∧
      r.removedFiles = (analysis.unusedFiles.filter (fun f =>
        env.fileExists (resolvePath env.projectPath f.path) &&
        ! env.unlinkFails (resolvePath env.projectPath f.path))).map
        (fun f => f.path) := by
  unfold cleanProject
  cases hr : remDirAt env.rmdirFails env.projectPath env.rootEntries with
  | error e =>
    rw [hr] at h
    simp [exOk] at h
  | ok b =>
    rw [cleanFiles_fold env analysis.unusedFiles ([], 0)]
    exact ⟨_, rfl, by simp, by simp⟩

/-- C8 amended, witness: in the concrete environment with one locked,
one deletable and one missing unused file, the accounting holds. -/
theorem c8_freed_space_accounting_amended_witness :
    ∃ r, cleanProject envCw analysisCw = Except.ok r ∧
      r.freedSpace = (analysisCw.unusedFiles.map (fun f =>
        if envCw.fileExists (resolvePath envCw.projectPath f.path) then
          envCw.fileSize (resolvePath envCw.projectPath f.path)
        else 0)).sum ∧
      r.removedFiles = (analysisCw.unusedFiles.filter (fun f =>
        envCw.fileExists (resolvePath envCw.projectPath f.path) &&
        ! envCw.unlinkFails (resolvePath envCw.projectPath f.path))).map
        (fun f => f.path) :=
  c8_freed_space_accounting_amended envCw analysisCw
    (by simp [remDirAt, remFold, rmdirAttempt, exOk, envCw])

/-- C9 counterexample: the claim says a failure to remove any one
directory is logged and skipped and a result is still returned.  The
`removeEmptyDirectories` call is not wrapped in a `try`: when the empty
directory `/proj/empty` cannot be `rmdir`ed, `cleanProject` aborts with
the error instead of returning a result — even though its dependency
removal had succeeded. -/
theorem c9_directory_pruning_failure_aborts :
    cleanProject envC9 analysisC9 = Except.error CleanErr.dirRemoval := by
  simp [cleanProject, envC9, analysisC9, remDirAt, remFold, rmdirAttempt]

/-- C9 amended: per-dependency, per-file, `node_modules`-removal and
reinstall failures are each caught, warned about and skipped, and —
provided the directory-pruning pass raises no error — `cleanProject`
returns a result whose `removedDependencies` are exactly the
dependencies whose entry rewrite succeeded and whose `removedDirs`
records `node_modules` exactly when it existed and its removal
succeeded; a failure inside the pruning pass aborts instead. -/
theorem c9_item_scoped_failures_amended (env : CleanEnv) (analysis : AnalysisResult)
    (h : exOk (remDirAt env.rmdirFails env.projectPath env.rootEntries) = true) :
    ∃ r, cleanProject env analysis = Except.ok r ∧
      r.removedDependencies = (analysis.unusedDependencies.filter
        (fun d => ! env.depRemoveFails d.name)).map (fun d => d.name) ∧
      r.removedDirs = (if env.nodeModulesExists ∧ ¬ env.nodeModulesRmFails then
        ["node_modules"] else []) := by
  unfold cleanProject
  cases hr : remDirAt env.rmdirFails env.projectPath env.rootEntries with
  | error e =>
    rw [hr] at h
    simp [exOk] at h
  | ok b =>
    exact ⟨_, rfl, by simp, rfl⟩

/-- C9 amended, witness: in the concrete environment where `dep2`'s
entry rewrite, one unlink and the reinstall all fail, cleanup still
completes and reports the successful items. -/
theorem c9_item_scoped_failures_amended_witness :
    ∃ r, cleanProject envCw analysisCw = Except.ok r ∧
      r.removedDependencies = (analysisCw.unusedDependencies.filter
        (fun d => ! envCw.depRemoveFails d.name)).map (fun d => d.name) ∧
      r.removedDirs = (if envCw.nodeModulesExists ∧ ¬ envCw.nodeModulesRmFails then
        ["node_modules"] else []) :=
  c9_item_scoped_failures_amended envCw analysisCw
    (by simp [remDirAt, remFold, rmdirAttempt, exOk, envCw])

/-- C10: an internal specifier is resolved against the importing file's
directory verbatim, with no extension appended: `./b` from `/proj/a.js`
resolves to `/proj/b`, an identity distinct from the candidate
`/proj/b.js`, so `b.js` — referenced only via the extensionless
specifier — is still classified as unused. -/
theorem c10_extensionless_specifier_distinct_identity :
    resolvePath (dirname "/proj/a.js") "./b" = "/proj/b" ∧
    ("/proj/b" = "/proj/b.js" → False) ∧
    analyzeProject projC10 = Except.ok ⟨[], [⟨"b.js", "tb", 22⟩]⟩ :=
  ⟨by decide, by decide, by decide⟩

end Refiner
